import Mathlib

/-!
Shallow embedding of the bridge core of webhook-bridge.py: the bidirectional
uuid/name cache, the tab-list presence tracker, the chat relay in both
directions, and the dedup/rate gate.  External collaborators (the Mojang
lookup service, the webhook delivery endpoints) are modelled as oracle
functions supplied through an environment record.
-/

namespace Bridge

/-! A bidict is modelled as an association list of (key, value) pairs; for
UUID_CACHE and PLAYER_LIST the key is the player uuid and the value is the
player name.  A bidict keeps both projections unique: assigning a value that
already exists under a different key raises ValueDuplicationError, and
deleting a missing key raises KeyError. -/

def bdKeys (l : List (String × String)) : List String :=
  l.map Prod.fst

def bdVals (l : List (String × String)) : List String :=
  l.map Prod.snd

def bdHasKey (l : List (String × String)) (k : String) : Bool :=
  l.any (fun e => e.1 == k)

def bdHasVal (l : List (String × String)) (v : String) : Bool :=
  l.any (fun e => e.2 == v)

def bdGet (l : List (String × String)) (k : String) : Option String :=
  (l.find? (fun e => e.1 == k)).map Prod.snd

def bdGetInv (l : List (String × String)) (v : String) : Option String :=
  (l.find? (fun e => e.2 == v)).map Prod.fst

def bdEraseKey (l : List (String × String)) (k : String) : List (String × String) :=
  l.filter (fun e => e.1 != k)

/-- Exceptions that the Python code can raise while touching the bidicts. -/
inductive PyErr where
  | keyError
  | valueDuplication
deriving DecidableEq

/-- Configuration and external collaborators of the bridge process:
the registered webhook endpoints, the account name of the bridge
(BOT_USERNAME), the analytics switch (config.es_enabled) and the two
directions of the Mojang identity lookup service, modelled as oracles
returning none on any lookup failure. -/
structure Env where
  webhooks : List String
  botUsername : String
  esEnabled : Bool
  mojangNameOf : String → Option String
  mojangIdOf : String → Option String

/-! String helpers used by the relay pipeline, each translated from the
corresponding Python helper. -/

def pyLower (s : String) : String :=
  String.mk (s.data.map Char.toLower)

def isPyWhitespace (c : Char) : Bool :=
  c == ' ' || c == '\t' || c == '\n' || c == '\r' || c == '\x0b' || c == '\x0c'

/-- Python str.strip with no argument: drop whitespace at both ends. -/
def pyStrip (s : String) : String :=
  String.mk (((s.data.dropWhile isPyWhitespace).reverse.dropWhile isPyWhitespace).reverse)

/-- Membership in the character class of the emoji_pattern regex of
remove_emoji. -/
def isEmojiChar (c : Char) : Bool :=
  decide ((0x1F600 ≤ c.toNat ∧ c.toNat ≤ 0x1F64F) ∨
    (0x1F300 ≤ c.toNat ∧ c.toNat ≤ 0x1F5FF) ∨
    (0x1F680 ≤ c.toNat ∧ c.toNat ≤ 0x1F6FF) ∨
    (0x1F1E0 ≤ c.toNat ∧ c.toNat ≤ 0x1F1FF) ∨
    (0x1F900 ≤ c.toNat ∧ c.toNat ≤ 0x1FAFF))

def remove_emoji (s : String) : String :=
  String.mk (s.data.filter (fun c => !(isEmojiChar c)))

/-- escape_markdown: the backslash is escaped first, then underscore and
asterisk; the three sequential replaces amount to this per-character map. -/
def escape_markdown (s : String) : String :=
  String.mk ((s.data.map (fun c =>
    if c == '\\' then ['\\', '\\']
    else if c == '_' then ['\\', '_']
    else if c == '*' then ['\\', '*']
    else [c])).flatten)

/-- The replace of "@" by "@" followed by a zero width space in handle_chat. -/
def atReplace (s : String) : String :=
  String.mk ((s.data.map (fun c => if c == '@' then ['@', '\u200B'] else [c])).flatten)

/-- Byte length of one character under UTF-8 encoding. -/
def utf8Len (c : Char) : Nat :=
  if c.toNat ≤ 0x7F then 1
  else if c.toNat ≤ 0x7FF then 2
  else if c.toNat ≤ 0xFFFF then 3
  else 4

/-- Python encode to utf-8 then decode as ascii with errors replaced: every
non-ascii character contributes one replacement character per encoded byte. -/
def asciiReplace (s : String) : String :=
  String.mk ((s.data.map (fun c =>
    if c.toNat ≤ 0x7F then [c] else List.replicate (utf8Len c) '\uFFFD')).flatten)

/-! Identity cache: mc_uuid_to_username and mc_username_to_uuid. -/

def stripDashes (s : String) : String :=
  String.mk (s.data.filter (fun c => c != '-'))

def isHexDigitChar (c : Char) : Bool :=
  decide ((48 ≤ c.toNat ∧ c.toNat ≤ 57) ∨ (97 ≤ c.toNat ∧ c.toNat ≤ 102) ∨
    (65 ≤ c.toNat ∧ c.toNat ≤ 70))

/-- An id string accepted by the uuid.UUID constructor (ignoring dashes,
32 hexadecimal digits). -/
def validUuidHex (s : String) : Bool :=
  (stripDashes s).data.length == 32 && (stripDashes s).data.all isHexDigitChar

/-- str(uuid.UUID(s)): the canonical dashed lowercase form of a uuid. -/
def canonicalUuid (s : String) : String :=
  let h := (stripDashes s).data.map Char.toLower
  String.mk (h.take 8 ++ '-' ::
    ((h.drop 8).take 4 ++ '-' ::
      ((h.drop 12).take 4 ++ '-' ::
        ((h.drop 16).take 4 ++ '-' :: h.drop 20))))

/-- mc_uuid_to_username: on a cache hit return the cached name without
consulting the lookup service; on a miss ask the service, store the pair
and return the name; every failure inside the try block (lookup failure or
the ValueDuplicationError of the cache insert) is caught and yields None
with the cache unchanged.  Returns (result, new cache). -/
def mc_uuid_to_username (env : Env) (cache : List (String × String)) (u : String) :
    Option String × List (String × String) :=
  if bdHasKey cache u then (bdGet cache u, cache)
  else
    match env.mojangNameOf u with
    | none => (none, cache)
    | some n =>
        if bdHasVal cache n then (none, cache)
        else (some n, cache ++ [(u, n)])

/-- mc_username_to_uuid: on a cache hit return the cached uuid; on a miss ask
the service for the raw id, store the pair (canonical dashed uuid, name) and
return the raw id itself; any failure in the try block (lookup failure, an id
rejected by uuid.UUID, or the ValueDuplicationError of the cache insert) is
caught by the bare except and yields None with the cache unchanged. -/
def mc_username_to_uuid (env : Env) (cache : List (String × String)) (n : String) :
    Option String × List (String × String) :=
  if bdHasVal cache n then (bdGetInv cache n, cache)
  else
    match env.mojangIdOf n with
    | none => (none, cache)
    | some raw =>
        if validUuidHex raw then
          if bdHasKey cache (canonicalUuid raw) then (none, cache)
          else (some raw, cache ++ [(canonicalUuid raw, n)])
        else (none, cache)

/-! Presence tracker: handle_tab_list over PlayerListItemPacket actions. -/

/-- The module-level mutable state touched by the tab-list handler. -/
structure BridgeState where
  playerList : List (String × String)
  uuidCache : List (String × String)
  prevPlayerList : List (String × String)
  acceptJoinEvents : Bool
deriving DecidableEq

inductive TabAction where
  | addPlayer (uuid name : String)
  | removePlayer (uuid : String)
deriving DecidableEq

/-- Observable outputs of the tab-list handler: webhook posts of the join and
leave embeds, and the elasticsearch connection log entries. -/
inductive TabEffect where
  | postJoin (endpoint name uuid : String)
  | postLeave (endpoint : String) (name : Option String) (uuid : String)
  | esConnected (uuid : String)
  | esDisconnected (uuid : String)
  | esSeen (uuid : String)
deriving DecidableEq

/-- Result of handling one action: effects emitted, the state afterwards,
an uncaught exception if one was raised, and whether the loop over the
actions of the packet continues (the handler has two early returns). -/
structure ActionStep where
  effects : List TabEffect
  state : BridgeState
  raised : Option PyErr
  continueBatch : Bool
deriving DecidableEq

/-- set(PREVIOUS_PLAYER_LIST.keys()) - set(PLAYER_LIST.keys()), as the list of
previous uuids absent from the current player list. -/
def backfillDiff (prev cur : List (String × String)) : List String :=
  (bdKeys prev).filter (fun u => !(bdHasKey cur u))

/-- The part of the AddPlayerAction branch after the two bidict inserts:
while ACCEPT_JOIN_EVENTS the join embed is posted to every webhook and the
handler returns from the whole packet; otherwise, when the added name is the
account of the bridge itself, join events start being accepted and the
players present before the reconnect but absent now are logged as
disconnected. -/
def processAddTail (env : Env) (st : BridgeState) (u n : String) : ActionStep :=
  if st.acceptJoinEvents then
    { effects := (env.webhooks.map (fun w => TabEffect.postJoin w n u)) ++
        (if env.esEnabled then [TabEffect.esConnected u] else []),
      state := st, raised := none, continueBatch := false }
  else if n == env.botUsername then
    { effects :=
        (if env.esEnabled then
          (backfillDiff st.prevPlayerList st.playerList).map TabEffect.esDisconnected ++
            [TabEffect.esConnected u, TabEffect.esSeen u]
        else []),
      state := { st with acceptJoinEvents := true }, raised := none, continueBatch := true }
  else
    { effects := (if env.esEnabled then [TabEffect.esSeen u] else []),
      state := st, raised := none, continueBatch := true }

/-- One AddPlayerAction: a name already in the player list is a duplicate add
and the handler silently returns from the whole packet; otherwise the pair is
inserted into PLAYER_LIST and, when missing, into UUID_CACHE (either insert
can raise ValueDuplicationError on a duplicated uuid), then processAddTail. -/
def processAdd (env : Env) (st : BridgeState) (u n : String) : ActionStep :=
  if bdHasVal st.playerList n then
    { effects := [], state := st, raised := none, continueBatch := false }
  else if bdHasKey st.playerList u then
    { effects := [], state := st, raised := some PyErr.valueDuplication,
      continueBatch := false }
  else
    let st1 := { st with playerList := st.playerList ++ [(u, n)] }
    if bdHasVal st1.uuidCache n then processAddTail env st1 u n
    else if bdHasKey st1.uuidCache u then
      { effects := [], state := st1, raised := some PyErr.valueDuplication,
        continueBatch := false }
    else
      processAddTail env { st1 with uuidCache := st1.uuidCache ++ [(u, n)] } u n

/-- One RemovePlayerAction: resolve the name (possibly touching the cache),
post the leave embed to every webhook unconditionally, then delete the uuid
from UUID_CACHE and PLAYER_LIST (each delete raises KeyError when the uuid is
absent) and log the disconnection. -/
def processRemove (env : Env) (st : BridgeState) (u : String) : ActionStep :=
  let r := mc_uuid_to_username env st.uuidCache u
  let st1 := { st with uuidCache := r.2 }
  let posts := env.webhooks.map (fun w => TabEffect.postLeave w r.1 u)
  if !(bdHasKey st1.uuidCache u) then
    { effects := posts, state := st1, raised := some PyErr.keyError,
      continueBatch := false }
  else
    let st2 := { st1 with uuidCache := bdEraseKey st1.uuidCache u }
    if !(bdHasKey st2.playerList u) then
      { effects := posts, state := st2, raised := some PyErr.keyError,
        continueBatch := false }
    else
      { effects := posts ++ (if env.esEnabled then [TabEffect.esDisconnected u] else []),
        state := { st2 with playerList := bdEraseKey st2.playerList u },
        raised := none, continueBatch := true }

/-- Result of a whole tab-list packet. -/
structure BatchResult where
  effects : List TabEffect
  state : BridgeState
  raised : Option PyErr
deriving DecidableEq

/-- handle_tab_list: the loop over the actions of one PlayerListItemPacket.
An early return or an exception stops the loop; the effects emitted before
that point stand. -/
def handle_tab_list (env : Env) : BridgeState → List TabAction → BatchResult
  | st, [] => { effects := [], state := st, raised := none }
  | st, TabAction.addPlayer u n :: rest =>
      let r := processAdd env st u n
      if r.continueBatch then
        let rr := handle_tab_list env r.state rest
        { effects := r.effects ++ rr.effects, state := rr.state, raised := rr.raised }
      else { effects := r.effects, state := r.state, raised := r.raised }
  | st, TabAction.removePlayer u :: rest =>
      let r := processRemove env st u
      if r.continueBatch then
        let rr := handle_tab_list env r.state rest
        { effects := r.effects ++ rr.effects, state := rr.state, raised := rr.raised }
      else { effects := r.effects, state := r.state, raised := r.raised }

/-- handle_disconnect, state part: snapshot the player list, stop accepting
join events and clear the player list (the reconnect loop itself only
sleeps and probes the server). -/
def handle_disconnect (st : BridgeState) : BridgeState :=
  { st with
    prevPlayerList := st.playerList
    acceptJoinEvents := false
    playerList := [] }

/-- handle_join_game: a fresh player list on session establishment. -/
def handle_join_game (st : BridgeState) : BridgeState :=
  { st with playerList := [] }

inductive GameEvent where
  | disconnectEvent
  | joinGameEvent
  | tabPacket (actions : List TabAction)

/-- A run of the connection lifecycle events that drive the presence
tracker. -/
def runEvents (env : Env) : BridgeState → List GameEvent → List TabEffect × BridgeState
  | st, [] => ([], st)
  | st, GameEvent.disconnectEvent :: rest => runEvents env (handle_disconnect st) rest
  | st, GameEvent.joinGameEvent :: rest => runEvents env (handle_join_game st) rest
  | st, GameEvent.tabPacket acts :: rest =>
      let r := handle_tab_list env st acts
      let rr := runEvents env r.state rest
      (r.effects ++ rr.1, rr.2)

/-! Game to chat direction: handle_chat. -/

/-- Helper for the non-greedy regex groups: split the character list at the
first occurrence of the mark character followed by a space, where neither the
consumed part nor the remainder group may cross a newline (the dot of the
regex does not match a newline). -/
def splitOnMark (mark : Char) : List Char → Option (List Char × List Char)
  | [] => none
  | c :: rest =>
      if c == mark && rest.head? == some ' ' then
        some ([], (rest.drop 1).takeWhile (fun x => x != '\n'))
      else if c == '\n' then none
      else (splitOnMark mark rest).map (fun p => (c :: p.1, p.2))

/-- The anchored match of the pattern matching a player chat line: an opening
angle bracket, the non-greedy speaker group, the closing bracket and a space,
then the message group. -/
def parseChat (s : String) : Option (String × String) :=
  match s.data with
  | '<' :: rest => (splitOnMark '>' rest).map (fun p => (String.mk p.1, String.mk p.2))
  | _ => none

/-- The case-insensitive match of the analytics pattern used for messages the
bridge relayed itself: the lowercased bot name in brackets, then the original
sender group up to a colon and space, then the message group. -/
def matchBotMessage (bot : String) (s : String) : Option (String × String) :=
  let pre := '<' :: ((pyLower bot).data ++ ['>', ' '])
  if (s.data.take pre.length).map Char.toLower == pre then
    (splitOnMark ':' (s.data.drop pre.length)).map (fun p => (String.mk p.1, String.mk p.2))
  else none

/-- Observable outputs of handle_chat: webhook posts of a relayed game chat
line, and the elasticsearch chat and raw log entries. -/
inductive ChatEffect where
  | postChat (endpoint username content : String)
  | esChatMessage (uuid : Option String) (displayName message : String)
  | esRawMessage
deriving DecidableEq

/-- handle_chat from the point where the chat components have been joined
into one string: match the player chat shape; on a match resolve the uuid,
suppress the relay entirely when the speaker is the account of the bridge
itself (keeping only analytics), otherwise sanitize and post to every
webhook.  Returns the effects and the updated UUID_CACHE. -/
def handle_chat (env : Env) (cache : List (String × String)) (chatString : String) :
    List ChatEffect × List (String × String) :=
  match parseChat chatString with
  | none => ((if env.esEnabled then [ChatEffect.esRawMessage] else []), cache)
  | some (username, originalMessage) =>
      let r := mc_username_to_uuid env cache username
      if pyLower username == pyLower env.botUsername then
        if env.esEnabled then
          match matchBotMessage env.botUsername chatString with
          | some (g1, g2) =>
              let r2 := mc_username_to_uuid env r.2 g1
              ([ChatEffect.esChatMessage r2.1 g1 g2, ChatEffect.esRawMessage], r2.2)
          | none => ([], r.2)
        else ([], r.2)
      else
        let message := escape_markdown (remove_emoji (atReplace (pyStrip originalMessage)))
        ((env.webhooks.map (fun w => ChatEffect.postChat w username message)) ++
          (if env.esEnabled then
            [ChatEffect.esChatMessage r.1 username originalMessage, ChatEffect.esRawMessage]
          else []),
         r.2)

/-! Chat to game direction: the relay section of on_message. -/

/-- Python slicing s[:n] for a possibly negative bound n. -/
def pySliceTo (n : Int) (s : String) : String :=
  if 0 ≤ n then String.mk (s.data.take n.toNat)
  else String.mk (s.data.take (s.data.length - min s.data.length n.natAbs))

inductive PrepOutcome where
  | dropped
  | forward (toSend toDiscord : String)
deriving DecidableEq

/-- The normalization and length budget of on_message: the to-game form is
the clean content through the ascii replacement, emoji removal and strip; the
re-display form is the markdown-escaped clean content; when the to-game
length plus the fixed two character padding and the sender name exceeds 256,
both forms are cut at the same index; an empty to-game form is dropped. -/
def prepareMessage (minecraftUsername cleanContent : String) : PrepOutcome :=
  let message_to_send := pyStrip (remove_emoji (asciiReplace cleanContent))
  let message_to_discord := escape_markdown cleanContent
  let padding := 2 + minecraftUsername.length
  let total_len := padding + message_to_send.length
  if 256 < total_len then
    PrepOutcome.forward (pySliceTo (256 - (padding : Int)) message_to_send)
      (pySliceTo (256 - (padding : Int)) message_to_discord)
  else if message_to_send.length ≤ 0 then PrepOutcome.dropped
  else PrepOutcome.forward message_to_send message_to_discord

/-- The chat packet message written to the game connection:
the sender name, a colon and a space, then the to-game form. -/
def gameChatMessage (minecraftUsername toSend : String) : String :=
  minecraftUsername ++ ": " ++ toSend

/-- The property of the length budget: when the normalized text plus the
prefix overhead exceeds the 256 character ceiling, both forms are cut at the
index given by the ceiling minus the prefix overhead, the transmitted to-game
line stays within the ceiling and so does the re-display form; and a
normalized text that is empty after stripping is dropped. -/
def c5Prop (minecraftUsername cleanContent : String) : Prop :=
  (256 < 2 + minecraftUsername.length +
      (pyStrip (remove_emoji (asciiReplace cleanContent))).length →
    prepareMessage minecraftUsername cleanContent =
      PrepOutcome.forward
        (String.mk ((pyStrip (remove_emoji (asciiReplace cleanContent))).data.take
          (256 - (2 + minecraftUsername.length))))
        (String.mk ((escape_markdown cleanContent).data.take
          (256 - (2 + minecraftUsername.length)))) ∧
    (gameChatMessage minecraftUsername
        (String.mk ((pyStrip (remove_emoji (asciiReplace cleanContent))).data.take
          (256 - (2 + minecraftUsername.length))))).length ≤ 256 ∧
    (String.mk ((escape_markdown cleanContent).data.take
        (256 - (2 + minecraftUsername.length)))).length ≤ 256) ∧
  ((pyStrip (remove_emoji (asciiReplace cleanContent))).length = 0 →
    prepareMessage minecraftUsername cleanContent = PrepOutcome.dropped)

/-- RelayThrottleState: PREVIOUS_MESSAGE and NEXT_MESSAGE_TIME. -/
structure ThrottleState where
  previousMessage : String
  nextMessageTime : Nat
deriving DecidableEq

inductive RelayOutcome where
  | rateLimited
  | relayed
deriving DecidableEq

/-- The dedup and rate gate of on_message: a message is rate-limited when it
equals the previously relayed message or the current time is before the next
allowed time; otherwise both throttle fields are updated and the message is
relayed. -/
def relayGate (messageDelay : Nat) (st : ThrottleState) (now : Nat)
    (messageToSend : String) : RelayOutcome × ThrottleState :=
  if messageToSend == st.previousMessage || now < st.nextMessageTime then
    (RelayOutcome.rateLimited, st)
  else
    (RelayOutcome.relayed,
      { previousMessage := messageToSend, nextMessageTime := now + messageDelay })

/-- The loop posting one payload to every registered webhook, with the
success of each post given by an oracle: an exception from one post
propagates out of the handler, so the loop stops at the first failure.
Returns the endpoints actually attempted and whether all succeeded. -/
def webhookFanout (postOk : String → Bool) : List String → List String × Bool
  | [] => ([], true)
  | w :: rest =>
      if postOk w then
        let r := webhookFanout postOk rest
        (w :: r.1, r.2)
      else ([w], false)

/-! Concrete environments and states used by the closed evaluations. -/

/-- A concrete environment with one webhook and analytics enabled. -/
def envA : Env :=
  { webhooks := ["hookA"], botUsername := "bridgebot", esEnabled := true,
    mojangNameOf := fun _ => none, mojangIdOf := fun _ => none }

/-- The environment envA with analytics disabled. -/
def envNoEs : Env :=
  { envA with esEnabled := false }

/-- An environment whose lookup service reports a new current name for every
identity, simulating a rename. -/
def envRename : Env :=
  { webhooks := [], botUsername := "bridgebot", esEnabled := false,
    mojangNameOf := fun _ => some "newname", mojangIdOf := fun _ => none }

/-- An environment whose lookup service resolves every name to one fixed raw
undashed id. -/
def envLookup : Env :=
  { envA with mojangIdOf := fun _ => some "00112233445566778899AABBccddeeff" }

/-- A backfilling state with two known players. -/
def stBackfill : BridgeState :=
  { playerList := [("u1", "alice"), ("u2", "bob")],
    uuidCache := [("u1", "alice"), ("u2", "bob")],
    prevPlayerList := [], acceptJoinEvents := false }

/-- An active state with two known players. -/
def stActive : BridgeState :=
  { stBackfill with acceptJoinEvents := true }

/-! Helper lemmas about the bidict model. -/

theorem string_mk_length (l : List Char) : (String.mk l).length = l.length :=
  rfl

theorem mem_bdKeys_of_mem {l : List (String × String)} {u n : String}
    (h : (u, n) ∈ l) : u ∈ bdKeys l :=
  List.mem_map.mpr ⟨(u, n), h, rfl⟩

theorem mem_bdVals_of_mem {l : List (String × String)} {u n : String}
    (h : (u, n) ∈ l) : n ∈ bdVals l :=
  List.mem_map.mpr ⟨(u, n), h, rfl⟩

theorem bdHasKey_eq_true {l : List (String × String)} {k : String} :
    bdHasKey l k = true ↔ k ∈ bdKeys l := by
  simp [bdHasKey, bdKeys, List.any_eq_true]

theorem bdHasVal_eq_true {l : List (String × String)} {v : String} :
    bdHasVal l v = true ↔ v ∈ bdVals l := by
  simp [bdHasVal, bdVals, List.any_eq_true]

theorem bdHasKey_eq_false {l : List (String × String)} {k : String} :
    bdHasKey l k = false ↔ ¬ k ∈ bdKeys l := by
  rw [← bdHasKey_eq_true]
  simp

theorem bdHasVal_eq_false {l : List (String × String)} {v : String} :
    bdHasVal l v = false ↔ ¬ v ∈ bdVals l := by
  rw [← bdHasVal_eq_true]
  simp

theorem bdGet_of_mem : ∀ {l : List (String × String)} {u n : String},
    (bdKeys l).Nodup → (u, n) ∈ l → bdGet l u = some n := by
  intro l
  induction l with
  | nil => intro u n _ h; simp at h
  | cons e tl ih =>
      intro u n hnd hmem
      have hnd2 := List.nodup_cons.mp (show (e.1 :: bdKeys tl).Nodup from hnd)
      rcases List.mem_cons.mp hmem with he | htl
      · rw [← he]
        simp [bdGet]
      · have hne : e.1 ≠ u := fun h => hnd2.1 (h ▸ mem_bdKeys_of_mem htl)
        have htlnd : (bdKeys tl).Nodup := hnd2.2
        simp only [bdGet, List.find?]
        rw [show (e.1 == u) = false by simp [hne]]
        exact ih htlnd htl

theorem bdGetInv_of_mem : ∀ {l : List (String × String)} {u n : String},
    (bdVals l).Nodup → (u, n) ∈ l → bdGetInv l n = some u := by
  intro l
  induction l with
  | nil => intro u n _ h; simp at h
  | cons e tl ih =>
      intro u n hnd hmem
      have hnd2 := List.nodup_cons.mp (show (e.2 :: bdVals tl).Nodup from hnd)
      rcases List.mem_cons.mp hmem with he | htl
      · rw [← he]
        simp [bdGetInv]
      · have hne : e.2 ≠ n := fun h => hnd2.1 (h ▸ mem_bdVals_of_mem htl)
        have htlnd : (bdVals tl).Nodup := hnd2.2
        simp only [bdGetInv, List.find?]
        rw [show (e.2 == n) = false by simp [hne]]
        exact ih htlnd htl

theorem bdGetInv_append_fresh {l : List (String × String)} {u n : String}
    (h : ¬ n ∈ bdVals l) : bdGetInv (l ++ [(u, n)]) n = some u := by
  induction l with
  | nil => simp [bdGetInv]
  | cons e tl ih =>
      have hne : e.2 ≠ n := fun he => h (he ▸ mem_bdVals_of_mem (List.mem_cons_self e tl))
      have htl : ¬ n ∈ bdVals tl := fun hm => by
        rcases List.mem_map.mp hm with ⟨a, ha, hav⟩
        exact h (hav ▸ mem_bdVals_of_mem (List.mem_cons_of_mem e ha))
      simp only [List.cons_append, bdGetInv, List.find?]
      rw [show (e.2 == n) = false by simp [hne]]
      exact htl |> fun h2 => ih h2

/-! Claim C3: the dedup and rate gate. -/

/-- Claim C3, counterexample to the claim as stated: after a first relay of
a message and once the configured delay has fully elapsed, an identical
normalized message is still rate-limited, because it equals the previously
relayed text and PREVIOUS_MESSAGE is only replaced by a successful relay. -/
theorem c3_counterexample :
    ((relayGate 5 { previousMessage := "", nextMessageTime := 0 } 0 "hi").1 =
        RelayOutcome.relayed) ∧
    ((relayGate 5 (relayGate 5 { previousMessage := "", nextMessageTime := 0 } 0 "hi").2 0
        "hi").1 = RelayOutcome.rateLimited) ∧
    ((relayGate 5 { previousMessage := "", nextMessageTime := 0 } 0 "hi").2.nextMessageTime
        ≤ 100) ∧
    ((relayGate 5 (relayGate 5 { previousMessage := "", nextMessageTime := 0 } 0 "hi").2 100
        "hi").1 = RelayOutcome.rateLimited) := by
  decide

/-- Claim C3, amended: a fresh message sent when the gate is open is relayed
and an identical normalized message sent at any later time, in particular
after the configured delay has elapsed, is rate-limited; a message is blocked
exactly when its normalized text equals the previously relayed text or the
current time precedes the stored next allowed time. -/
theorem c3_dedup_gate (messageDelay : Nat) (st st2 : ThrottleState) (t1 t2 now : Nat)
    (msg m : String)
    (h1 : msg ≠ st.previousMessage) (h2 : ¬ t1 < st.nextMessageTime) :
    (relayGate messageDelay st t1 msg).1 = RelayOutcome.relayed ∧
    (relayGate messageDelay (relayGate messageDelay st t1 msg).2 t2 msg).1 =
      RelayOutcome.rateLimited ∧
    ((relayGate messageDelay st2 now m).1 = RelayOutcome.rateLimited ↔
      (m = st2.previousMessage ∨ now < st2.nextMessageTime)) := by
  refine ⟨?_, ?_, ?_⟩
  · simp [relayGate, h1, h2]
  · simp [relayGate, h1, h2]
  · by_cases hm : m = st2.previousMessage <;> by_cases ht : now < st2.nextMessageTime <;>
      simp [relayGate, hm, ht]

/-- Claim C3, witness for the amended theorem at a concrete input. -/
theorem c3_witness :
    (relayGate 7 { previousMessage := "x", nextMessageTime := 0 } 0 "hi").1 =
      RelayOutcome.relayed ∧
    (relayGate 7 (relayGate 7 { previousMessage := "x", nextMessageTime := 0 } 0 "hi").2 99
        "hi").1 = RelayOutcome.rateLimited ∧
    ((relayGate 7 { previousMessage := "y", nextMessageTime := 3 } 1 "z").1 =
        RelayOutcome.rateLimited ↔
      ("z" = ({ previousMessage := "y", nextMessageTime := 3 } : ThrottleState).previousMessage ∨
        1 < ({ previousMessage := "y", nextMessageTime := 3 } : ThrottleState).nextMessageTime)) :=
  c3_dedup_gate 7 { previousMessage := "x", nextMessageTime := 0 }
    { previousMessage := "y", nextMessageTime := 3 } 0 99 1 "hi" "z"
    (by decide) (by decide)

/-! Claim C4: identity cache round-trip and rename behaviour. -/

/-- Claim C4, counterexample to the claim as stated: the identity u1 is
cached under the name oldname while the external source reports the current
name newname; the cache entry is not overwritten and resolve_name still
returns the old name, because a cache hit never consults the source. -/
theorem c4_counterexample :
    envRename.mojangNameOf "u1" = some "newname" ∧
    mc_uuid_to_username envRename [("u1", "oldname")] "u1" =
      (some "oldname", [("u1", "oldname")]) ∧
    mc_username_to_uuid envRename [("u1", "oldname")] "oldname" =
      (some "u1", [("u1", "oldname")]) ∧
    some "oldname" ≠ some "newname" := by
  decide

/-- Claim C4, amended: for every identity with a cache entry,
resolve_id(resolve_name(id)) returns id; but a cached identity that presents
a different current name is never overwritten: resolve_name(id) keeps
returning the cached old name whatever the external source now reports, the
cache is unchanged, and resolve_id(old_name) still resolves to id. -/
theorem c4_roundtrip_no_overwrite (env : Env) (cache : List (String × String))
    (u n : String) (hmem : (u, n) ∈ cache)
    (hk : (bdKeys cache).Nodup) (hv : (bdVals cache).Nodup) :
    mc_uuid_to_username env cache u = (some n, cache) ∧
    mc_username_to_uuid env cache n = (some u, cache) := by
  have hku : bdHasKey cache u = true := bdHasKey_eq_true.mpr (mem_bdKeys_of_mem hmem)
  have hvn : bdHasVal cache n = true := bdHasVal_eq_true.mpr (mem_bdVals_of_mem hmem)
  constructor
  · simp [mc_uuid_to_username, hku, bdGet_of_mem hk hmem]
  · simp [mc_username_to_uuid, hvn, bdGetInv_of_mem hv hmem]

/-- Claim C4, witness for the amended theorem at a concrete input. -/
theorem c4_witness :
    mc_uuid_to_username envRename [("u1", "oldname")] "u1" =
      (some "oldname", [("u1", "oldname")]) ∧
    mc_username_to_uuid envRename [("u1", "oldname")] "oldname" =
      (some "u1", [("u1", "oldname")]) :=
  c4_roundtrip_no_overwrite envRename [("u1", "oldname")] "u1" "oldname"
    (by decide) (by decide) (by decide)

/-! Claim C6: duplicate add events. -/

/-- Claim C6: the duplicate AddPlayerAction for u1 is indeed ignored without
raising and without touching the presence set, but the early return aborts
the whole packet, so the following RemovePlayerAction is not processed: the
leave embed that processing it alone would have posted is absent and u2 stays
in the player list. -/
theorem c6_duplicate_add_aborts_packet :
    handle_tab_list envNoEs stActive
        [TabAction.addPlayer "u1" "alice", TabAction.removePlayer "u2"] =
      { effects := [], state := stActive, raised := none } ∧
    handle_tab_list envNoEs stActive [TabAction.removePlayer "u2"] =
      { effects := [TabEffect.postLeave "hookA" (some "bob") "u2"],
        state := { stActive with
          playerList := [("u1", "alice")]
          uuidCache := [("u1", "alice")] },
        raised := none } := by
  decide

/-! Claim C7: webhook fan-out failure isolation. -/

/-- Claim C7, counterexample to the claim as stated: with two registered
endpoints, a failing post to the first stops the loop, so the second endpoint
is never attempted. -/
theorem c7_counterexample :
    webhookFanout (fun w => w == "hookB") ["hookA", "hookB"] = (["hookA"], false) ∧
    ¬ "hookB" ∈ (webhookFanout (fun w => w == "hookB") ["hookA", "hookB"]).1 := by
  decide

/-- Claim C7, amended: a failing post is not isolated: the loop posts to the
endpoints before the failing one, attempts the failing one, and never
attempts the endpoints after it. -/
theorem c7_failure_aborts_fanout (postOk : String → Bool) (pre rest : List String)
    (w : String) (hpre : ∀ x ∈ pre, postOk x = true) (hw : postOk w = false) :
    webhookFanout postOk (pre ++ w :: rest) = (pre ++ [w], false) := by
  induction pre with
  | nil => simp [webhookFanout, hw]
  | cons a tl ih =>
      have ha : postOk a = true := hpre a (List.mem_cons_self a tl)
      have := ih (fun x hx => hpre x (List.mem_cons_of_mem a hx))
      simp [webhookFanout, ha, this]

/-- Claim C7, witness for the amended theorem at a concrete input. -/
theorem c7_witness :
    webhookFanout (fun w => w == "hookA") (["hookA"] ++ "hookB" :: ["hookC"]) =
      (["hookA"] ++ ["hookB"], false) :=
  c7_failure_aborts_fanout (fun w => w == "hookA") ["hookA"] ["hookC"] "hookB"
    (by decide) (by decide)

/-! Claim C1, counterexample part: a RemovePlayerAction arriving during
backfill still posts the leave embed to every webhook. -/

/-- Claim C1, counterexample to the claim as stated: in a backfilling state
(join events not accepted) a RemovePlayerAction posts the leave embed to the
registered webhook, so a webhook post does happen outside the Active
session. -/
theorem c1_counterexample :
    stBackfill.acceptJoinEvents = false ∧
    handle_tab_list envNoEs stBackfill [TabAction.removePlayer "u1"] =
      { effects := [TabEffect.postLeave "hookA" (some "alice") "u1"],
        state := { stBackfill with
          playerList := [("u2", "bob")]
          uuidCache := [("u2", "bob")] },
        raised := none } := by
  decide

/-! Claim C8: the bridge never forwards its own game chat lines. -/

/-- Claim C8: a game chat event that matches the player chat shape and whose
speaker equals the account of the bridge, compared case-insensitively, posts
nothing to any webhook endpoint; the only possible effects are analytics log
entries. -/
theorem c8_own_speaker_not_forwarded (env : Env) (cache : List (String × String))
    (s u m w usr content : String)
    (hparse : parseChat s = some (u, m))
    (hbot : pyLower u = pyLower env.botUsername) :
    ¬ ChatEffect.postChat w usr content ∈ (handle_chat env cache s).1 := by
  have hb : (pyLower u == pyLower env.botUsername) = true := beq_iff_eq.mpr hbot
  unfold handle_chat
  rw [hparse]
  simp only [hb, if_true]
  by_cases he : env.esEnabled
  · simp only [he, if_true]
    cases hm : matchBotMessage env.botUsername s with
    | none => simp
    | some g => cases g with | mk g1 g2 => simp
  · simp [he]

/-- Claim C8, witness at a concrete input: the speaker BRIDGEbot matches the
bot account bridgebot up to case, and nothing is posted. -/
theorem c8_witness :
    ¬ ChatEffect.postChat "hookA" "alice" "hello" ∈
      (handle_chat envA [] "<BRIDGEbot> hello").1 :=
  c8_own_speaker_not_forwarded envA [] "<BRIDGEbot> hello" "BRIDGEbot" "hello"
    "hookA" "alice" "hello" (by decide) (by decide)

/-! Claim C9: the early return of the accepting AddPlayerAction branch. -/

/-- While join events are accepted, a non-duplicate AddPlayerAction that
inserts cleanly posts the join embed and ends the batch. -/
theorem processAdd_accept (env : Env) (st : BridgeState) (u n : String)
    (hacc : st.acceptJoinEvents = true)
    (hn : ¬ n ∈ bdVals st.playerList)
    (hu : ¬ u ∈ bdKeys st.playerList)
    (hcache : n ∈ bdVals st.uuidCache ∨ ¬ u ∈ bdKeys st.uuidCache) :
    (processAdd env st u n).continueBatch = false ∧
    (processAdd env st u n).effects =
      (env.webhooks.map (fun w => TabEffect.postJoin w n u)) ++
        (if env.esEnabled then [TabEffect.esConnected u] else []) := by
  have h1 : bdHasVal st.playerList n = false := bdHasVal_eq_false.mpr hn
  have h2 : bdHasKey st.playerList u = false := bdHasKey_eq_false.mpr hu
  unfold processAdd processAddTail
  rcases hcache with hc | hc
  · have h3 : bdHasVal st.uuidCache n = true := bdHasVal_eq_true.mpr hc
    simp [h1, h2, h3, hacc]
  · by_cases h3 : bdHasVal st.uuidCache n
    · simp [h1, h2, h3, hacc]
    · have h4 : bdHasKey st.uuidCache u = false := bdHasKey_eq_false.mpr hc
      simp [h1, h2, h3, h4, hacc]

/-- Claim C9: while join events are accepted, once the join notification for
an AddPlayerAction has been relayed the handler returns: processing the
packet with any further actions after that add gives exactly the same result
as processing the add alone, and the join embed was posted. -/
theorem c9_join_relay_ends_packet (env : Env) (st : BridgeState) (u n w : String)
    (rest : List TabAction)
    (hacc : st.acceptJoinEvents = true)
    (hn : ¬ n ∈ bdVals st.playerList)
    (hu : ¬ u ∈ bdKeys st.playerList)
    (hcache : n ∈ bdVals st.uuidCache ∨ ¬ u ∈ bdKeys st.uuidCache)
    (hw : w ∈ env.webhooks) :
    handle_tab_list env st (TabAction.addPlayer u n :: rest) =
      handle_tab_list env st [TabAction.addPlayer u n] ∧
    TabEffect.postJoin w n u ∈
      (handle_tab_list env st (TabAction.addPlayer u n :: rest)).effects := by
  have hstep := processAdd_accept env st u n hacc hn hu hcache
  constructor
  · simp [handle_tab_list, hstep.1]
  · simp only [handle_tab_list, hstep.1, Bool.false_eq_true, if_false]
    rw [hstep.2]
    exact List.mem_append.mpr (Or.inl (List.mem_map.mpr ⟨w, hw, rfl⟩))

/-- Claim C9, witness at a concrete input: the packet also carries a
RemovePlayerAction after the add, and it is not processed. -/
theorem c9_witness :
    handle_tab_list envA
        { playerList := [], uuidCache := [], prevPlayerList := [],
          acceptJoinEvents := true }
        [TabAction.addPlayer "u9" "dave", TabAction.removePlayer "zz"] =
      handle_tab_list envA
        { playerList := [], uuidCache := [], prevPlayerList := [],
          acceptJoinEvents := true }
        [TabAction.addPlayer "u9" "dave"] ∧
    TabEffect.postJoin "hookA" "dave" "u9" ∈
      (handle_tab_list envA
        { playerList := [], uuidCache := [], prevPlayerList := [],
          acceptJoinEvents := true }
        [TabAction.addPlayer "u9" "dave", TabAction.removePlayer "zz"]).effects :=
  c9_join_relay_ends_packet envA
    { playerList := [], uuidCache := [], prevPlayerList := [],
      acceptJoinEvents := true }
    "u9" "dave" "hookA" [TabAction.removePlayer "zz"]
    (by decide) (by decide) (by decide) (Or.inr (by decide)) (by decide)

/-! Claim C10: the representation mismatch of mc_username_to_uuid. -/

/-- Claim C10: on a cache miss with a successful lookup of a raw undashed
32 digit id, mc_username_to_uuid returns the raw id but stores the canonical
dashed form in the cache, so a second call with the same name returns the
dashed form, a different string from the first result. -/
theorem c10_lookup_representation_mismatch (env : Env)
    (cache : List (String × String)) (n raw : String)
    (hmiss : ¬ n ∈ bdVals cache)
    (hor : env.mojangIdOf n = some raw)
    (hvalid : validUuidHex raw = true)
    (hnodash : ∀ c ∈ raw.data, (c != '-') = true)
    (hfresh : ¬ canonicalUuid raw ∈ bdKeys cache) :
    (mc_username_to_uuid env cache n).1 = some raw ∧
    (mc_username_to_uuid env cache n).2 = cache ++ [(canonicalUuid raw, n)] ∧
    (mc_username_to_uuid env (cache ++ [(canonicalUuid raw, n)]) n).1 =
      some (canonicalUuid raw) ∧
    canonicalUuid raw ≠ raw := by
  have h1 : bdHasVal cache n = false := bdHasVal_eq_false.mpr hmiss
  have h2 : bdHasKey cache (canonicalUuid raw) = false := bdHasKey_eq_false.mpr hfresh
  have hstrip : stripDashes raw = raw := by
    unfold stripDashes
    rw [List.filter_eq_self.mpr hnodash]
  have hlen32 : raw.data.length = 32 := by
    have hv := hvalid
    unfold validUuidHex at hv
    rw [hstrip] at hv
    have := (Bool.and_eq_true _ _).mp hv
    exact beq_iff_eq.mp this.1
  have hne : canonicalUuid raw ≠ raw := by
    intro heq
    have hlen : (canonicalUuid raw).length = raw.length := congrArg String.length heq
    unfold canonicalUuid at hlen
    rw [hstrip] at hlen
    rw [string_mk_length] at hlen
    simp only [List.length_append, List.length_cons, List.length_take,
      List.length_drop, List.length_map, hlen32, String.length] at hlen
    omega
  refine ⟨?_, ?_, ?_, hne⟩
  · simp [mc_username_to_uuid, h1, hor, hvalid, h2]
  · simp [mc_username_to_uuid, h1, hor, hvalid, h2]
  · have h3 : bdHasVal (cache ++ [(canonicalUuid raw, n)]) n = true :=
      bdHasVal_eq_true.mpr (mem_bdVals_of_mem (List.mem_append.mpr (Or.inr
        (List.mem_cons_self _ _))))
    simp [mc_username_to_uuid, h3, bdGetInv_append_fresh hmiss]

/-- Claim C10, witness at a concrete input. -/
theorem c10_witness :
    (mc_username_to_uuid envLookup [] "alice").1 =
      some "00112233445566778899AABBccddeeff" ∧
    (mc_username_to_uuid envLookup [] "alice").2 =
      [] ++ [(canonicalUuid "00112233445566778899AABBccddeeff", "alice")] ∧
    (mc_username_to_uuid envLookup
        ([] ++ [(canonicalUuid "00112233445566778899AABBccddeeff", "alice")]) "alice").1 =
      some (canonicalUuid "00112233445566778899AABBccddeeff") ∧
    canonicalUuid "00112233445566778899AABBccddeeff" ≠
      "00112233445566778899AABBccddeeff" :=
  c10_lookup_representation_mismatch envLookup [] "alice"
    "00112233445566778899AABBccddeeff" (by decide) (by decide) (by decide)
    (by decide) (by decide)

/-! Claim C5: the length budget and truncation of on_message. -/

/-- Claim C5: when the normalized text plus the sender prefix overhead
exceeds the 256 character ceiling, the to-game and re-display forms are cut
at the same index, namely the ceiling minus the prefix overhead, and neither
the transmitted game chat line nor the re-display form exceeds the ceiling;
a normalized text empty after stripping is dropped silently. -/
theorem c5_truncation (minecraftUsername cleanContent : String)
    (hpad : minecraftUsername.length + 2 ≤ 256) :
    c5Prop minecraftUsername cleanContent := by
  unfold c5Prop
  constructor
  · intro hover
    have harg : ((256 : Int) - ((2 + minecraftUsername.length : Nat) : Int)).toNat =
        256 - (2 + minecraftUsername.length) := by omega
    have hslice : ∀ s : String,
        pySliceTo (256 - ((2 + minecraftUsername.length : Nat) : Int)) s =
          String.mk (s.data.take (256 - (2 + minecraftUsername.length))) := by
      intro s
      unfold pySliceTo
      rw [if_pos (by omega), harg]
    refine ⟨?_, ?_, ?_⟩
    · simp only [prepareMessage]
      rw [if_pos hover, hslice, hslice]
    · have htake : (String.mk ((pyStrip (remove_emoji (asciiReplace
          cleanContent))).data.take (256 - (2 + minecraftUsername.length)))).length ≤
          256 - (2 + minecraftUsername.length) := by
        rw [string_mk_length, List.length_take]
        exact min_le_left _ _
      unfold gameChatMessage
      rw [String.length_append, String.length_append,
        show (": " : String).length = 2 from rfl]
      omega
    · have htake : (String.mk ((escape_markdown cleanContent).data.take
          (256 - (2 + minecraftUsername.length)))).length ≤
          256 - (2 + minecraftUsername.length) := by
        rw [string_mk_length, List.length_take]
        exact min_le_left _ _
      omega
  · intro hzero
    simp only [prepareMessage]
    rw [if_neg (by omega), if_pos (by omega)]

/-- Claim C5, witness at a concrete input: a two character sender name and a
clean content of three hundred characters. -/
theorem c5_witness :
    "ab".length + 2 ≤ 256 ∧ c5Prop "ab" (String.mk (List.replicate 300 'a')) :=
  ⟨by decide, c5_truncation "ab" (String.mk (List.replicate 300 'a')) (by decide)⟩

/-! Claim C1, amended part: join embeds are only posted while Active. -/

/-- While backfilling and for an added name other than the bot account, the
tail of the add branch only logs a seen entry and the batch continues. -/
theorem processAddTail_backfill (env : Env) (st : BridgeState) (u n : String)
    (hacc : st.acceptJoinEvents = false) (hn : n ≠ env.botUsername) :
    processAddTail env st u n =
      { effects := (if env.esEnabled then [TabEffect.esSeen u] else []),
        state := st, raised := none, continueBatch := true } := by
  simp [processAddTail, hacc, hn]

/-- While backfilling, an AddPlayerAction whose name is not the bot account
never posts a join embed and leaves the session backfilling. -/
theorem processAdd_backfill_no_join (env : Env) (st : BridgeState) (u n : String)
    (hacc : st.acceptJoinEvents = false) (hn : n ≠ env.botUsername)
    (w m v : String) :
    ¬ TabEffect.postJoin w m v ∈ (processAdd env st u n).effects ∧
    (processAdd env st u n).state.acceptJoinEvents = false := by
  unfold processAdd processAddTail
  by_cases h1 : bdHasVal st.playerList n <;>
    by_cases h2 : bdHasKey st.playerList u <;>
      by_cases h3 : bdHasVal st.uuidCache n <;>
        by_cases h4 : bdHasKey st.uuidCache u <;>
          by_cases h5 : env.esEnabled <;>
            simp [h1, h2, h3, h4, h5, hacc, hn]

/-- A RemovePlayerAction never posts a join embed and does not change whether
join events are accepted. -/
theorem processRemove_no_join (env : Env) (st : BridgeState) (u w m v : String) :
    ¬ TabEffect.postJoin w m v ∈ (processRemove env st u).effects ∧
    (processRemove env st u).state.acceptJoinEvents = st.acceptJoinEvents := by
  unfold processRemove
  by_cases h1 : bdHasKey (mc_uuid_to_username env st.uuidCache u).2 u <;>
    by_cases h2 : bdHasKey st.playerList u <;>
      by_cases h3 : env.esEnabled <;>
        simp [h1, h2, h3]

/-- Claim C1, amended: join notifications are posted only while join events
are accepted: starting from a backfilling state, as long as no action of the
packet adds the account name of the bridge (which would complete the
backfill), no join embed is posted to any webhook; RemovePlayerActions, by
contrast, post their leave embed regardless of the session state, as the
counterexample shows. -/
theorem c1_join_posts_only_while_active (env : Env) (acts : List TabAction)
    (st : BridgeState) (w m v : String)
    (hacc : st.acceptJoinEvents = false)
    (hnobot : ∀ u n, TabAction.addPlayer u n ∈ acts → n ≠ env.botUsername) :
    ¬ TabEffect.postJoin w m v ∈ (handle_tab_list env st acts).effects := by
  revert hnobot
  induction acts generalizing st with
  | nil =>
      intro _
      simp [handle_tab_list]
  | cons a rest ih =>
      intro hnobot
      have hrest : ∀ u2 n2, TabAction.addPlayer u2 n2 ∈ rest → n2 ≠ env.botUsername :=
        fun u2 n2 hm => hnobot u2 n2 (List.mem_cons_of_mem _ hm)
      cases a with
      | addPlayer u n =>
          have hn : n ≠ env.botUsername := hnobot u n (List.mem_cons_self _ _)
          have hstep := processAdd_backfill_no_join env st u n hacc hn w m v
          by_cases hc : (processAdd env st u n).continueBatch
          · simp only [handle_tab_list, hc, if_true]
            simp only [List.mem_append, not_or]
            exact ⟨hstep.1, ih _ hstep.2 hrest⟩
          · simp only [handle_tab_list, hc, Bool.false_eq_true, if_false]
            exact hstep.1
      | removePlayer u =>
          have hstep := processRemove_no_join env st u w m v
          by_cases hc : (processRemove env st u).continueBatch
          · simp only [handle_tab_list, hc, if_true]
            simp only [List.mem_append, not_or]
            exact ⟨hstep.1, ih _ (hstep.2.trans hacc) hrest⟩
          · simp only [handle_tab_list, hc, Bool.false_eq_true, if_false]
            exact hstep.1

/-- Claim C1, witness for the amended theorem at a concrete input. -/
theorem c1_witness :
    stBackfill.acceptJoinEvents = false ∧
    ¬ TabEffect.postJoin "hookA" "carol" "u3" ∈
      (handle_tab_list envA stBackfill [TabAction.addPlayer "u3" "carol"]).effects :=
  ⟨by decide,
    c1_join_posts_only_while_active envA [TabAction.addPlayer "u3" "carol"]
      stBackfill "hookA" "carol" "u3" (by decide)
      (by
        intro u n hm
        simp only [List.mem_singleton, TabAction.addPlayer.injEq] at hm
        rw [hm.2]
        decide)⟩

/-! Claim C2: players gone during the downtime never get a webhook leave
post; with analytics enabled they get exactly one analytics disconnect
entry, at backfill completion. -/

/-- Processing a silent backfill prefix: while join events are not accepted,
a list of AddPlayerActions whose pairs are already cached, whose names are
not the bot account and which insert cleanly only logs one seen entry per
add, extends the player list by the added pairs and then continues with the
rest of the packet. -/
theorem backfill_adds_step (env : Env) (hes : env.esEnabled = true)
    (adds : List (String × String)) :
    ∀ (st : BridgeState) (tail : List TabAction),
      st.acceptJoinEvents = false →
      (∀ a ∈ adds, a.2 ≠ env.botUsername) →
      (∀ a ∈ adds, a ∈ st.uuidCache) →
      (∀ a ∈ adds, ¬ a.1 ∈ bdKeys st.playerList) →
      (∀ a ∈ adds, ¬ a.2 ∈ bdVals st.playerList) →
      (bdKeys adds).Nodup →
      (bdVals adds).Nodup →
      handle_tab_list env st
          ((adds.map (fun a => TabAction.addPlayer a.1 a.2)) ++ tail) =
        { effects := (adds.map (fun a => TabEffect.esSeen a.1)) ++
            (handle_tab_list env { st with playerList := st.playerList ++ adds }
              tail).effects,
          state := (handle_tab_list env { st with playerList := st.playerList ++ adds }
            tail).state,
          raised := (handle_tab_list env
            { st with playerList := st.playerList ++ adds } tail).raised } := by
  induction adds with
  | nil =>
      intro st tail _ _ _ _ _ _ _
      simp [handle_tab_list]
  | cons a tl ih =>
      intro st tail hacc hnobot hcache hkfresh hvfresh hknd hvnd
      have ha2 : a.2 ≠ env.botUsername := hnobot a (List.mem_cons_self _ _)
      have h1 : bdHasVal st.playerList a.2 = false :=
        bdHasVal_eq_false.mpr (hvfresh a (List.mem_cons_self _ _))
      have h2 : bdHasKey st.playerList a.1 = false :=
        bdHasKey_eq_false.mpr (hkfresh a (List.mem_cons_self _ _))
      have h3 : bdHasVal st.uuidCache a.2 = true :=
        bdHasVal_eq_true.mpr (mem_bdVals_of_mem (hcache a (List.mem_cons_self _ _)))
      have hknd2 := List.nodup_cons.mp (show (a.1 :: bdKeys tl).Nodup from hknd)
      have hvnd2 := List.nodup_cons.mp (show (a.2 :: bdVals tl).Nodup from hvnd)
      have hstep : processAdd env st a.1 a.2 =
          { effects := [TabEffect.esSeen a.1],
            state := { st with playerList := st.playerList ++ [a] },
            raised := none, continueBatch := true } := by
        unfold processAdd
        simp only [h1, h2, h3, Bool.false_eq_true, if_false, if_true]
        rw [processAddTail_backfill env
          { st with playerList := st.playerList ++ [(a.1, a.2)] } a.1 a.2 hacc ha2]
        simp [hes]
      have ihx := ih { st with playerList := st.playerList ++ [a] } tail hacc
        (fun x hx => hnobot x (List.mem_cons_of_mem _ hx))
        (fun x hx => hcache x (List.mem_cons_of_mem _ hx))
        (by
          intro x hx hmem
          have : bdKeys (st.playerList ++ [a]) = bdKeys st.playerList ++ [a.1] := by
            simp [bdKeys]
          rw [show ({ st with playerList := st.playerList ++ [a] } :
            BridgeState).playerList = st.playerList ++ [a] from rfl, this] at hmem
          rcases List.mem_append.mp hmem with hl | hr
          · exact hkfresh x (List.mem_cons_of_mem _ hx) hl
          · have hx1 : x.1 = a.1 := List.mem_singleton.mp hr
            exact hknd2.1 (hx1 ▸ mem_bdKeys_of_mem hx)
        )
        (by
          intro x hx hmem
          have : bdVals (st.playerList ++ [a]) = bdVals st.playerList ++ [a.2] := by
            simp [bdVals]
          rw [show ({ st with playerList := st.playerList ++ [a] } :
            BridgeState).playerList = st.playerList ++ [a] from rfl, this] at hmem
          rcases List.mem_append.mp hmem with hl | hr
          · exact hvfresh x (List.mem_cons_of_mem _ hx) hl
          · have hx2 : x.2 = a.2 := List.mem_singleton.mp hr
            exact hvnd2.1 (hx2 ▸ mem_bdVals_of_mem hx)
        )
        hknd2.2 hvnd2.2
      have hlist : (st.playerList ++ [a]) ++ tl = st.playerList ++ a :: tl := by
        simp
      rw [List.map_cons, List.cons_append]
      simp only [handle_tab_list, hstep, if_true]
      rw [ihx]
      simp [List.append_assoc]

/-- Claim C2, amended: starting from a state whose player list contains the
identity p, after a disconnect (which snapshots the presence set) and a
reconnect whose backfill re-adds a list of cached players not containing p
and ends with the own account of the bridge, no leave embed is ever posted
to a webhook endpoint during the whole run, and with analytics enabled
exactly one elasticsearch disconnect entry for p is emitted over the whole
run; the run that stops just before the own identity arrives emits none
(never during backfill); and join events are accepted afterwards. -/
theorem c2_offline_leaver_single_notice (env : Env) (st0 : BridgeState)
    (adds : List (String × String)) (botUuid p : String)
    (wh : String) (lname : Option String) (luuid : String)
    (hes : env.esEnabled = true)
    (hp : p ∈ bdKeys st0.playerList)
    (hnodup : (bdKeys st0.playerList).Nodup)
    (hcache : ∀ a ∈ adds ++ [(botUuid, env.botUsername)], a ∈ st0.uuidCache)
    (hkeys : (bdKeys (adds ++ [(botUuid, env.botUsername)])).Nodup)
    (hvals : (bdVals (adds ++ [(botUuid, env.botUsername)])).Nodup)
    (hnobot : ∀ a ∈ adds, a.2 ≠ env.botUsername)
    (hgone : ¬ p ∈ bdKeys (adds ++ [(botUuid, env.botUsername)])) :
    ((runEvents env st0
        [GameEvent.disconnectEvent, GameEvent.joinGameEvent,
          GameEvent.tabPacket ((adds.map (fun a => TabAction.addPlayer a.1 a.2)) ++
            [TabAction.addPlayer botUuid env.botUsername])]).1.count
      (TabEffect.esDisconnected p)) = 1 ∧
    ¬ TabEffect.esDisconnected p ∈
      (runEvents env st0
        [GameEvent.disconnectEvent, GameEvent.joinGameEvent,
          GameEvent.tabPacket (adds.map (fun a => TabAction.addPlayer a.1 a.2))]).1 ∧
    (runEvents env st0
        [GameEvent.disconnectEvent, GameEvent.joinGameEvent,
          GameEvent.tabPacket ((adds.map (fun a => TabAction.addPlayer a.1 a.2)) ++
            [TabAction.addPlayer botUuid env.botUsername])]).2.acceptJoinEvents =
      true ∧
    ¬ TabEffect.postLeave wh lname luuid ∈
      (runEvents env st0
        [GameEvent.disconnectEvent, GameEvent.joinGameEvent,
          GameEvent.tabPacket ((adds.map (fun a => TabAction.addPlayer a.1 a.2)) ++
            [TabAction.addPlayer botUuid env.botUsername])]).1 := by
  have hbotpair : (botUuid, env.botUsername) ∈ st0.uuidCache :=
    hcache _ (List.mem_append.mpr (Or.inr (List.mem_singleton.mpr rfl)))
  have hkeq : bdKeys (adds ++ [(botUuid, env.botUsername)]) =
      bdKeys adds ++ [botUuid] := by
    simp [bdKeys]
  have hkeys2 : (bdKeys adds ++ [botUuid]).Nodup := hkeq ▸ hkeys
  have hknd : (bdKeys adds).Nodup := hkeys2.of_append_left
  have hvnd : (bdVals adds).Nodup := by
    have hveq : bdVals (adds ++ [(botUuid, env.botUsername)]) =
        bdVals adds ++ [env.botUsername] := by
      simp [bdVals]
    exact (hveq ▸ hvals).of_append_left
  have hbotk : ¬ botUuid ∈ bdKeys adds := fun hmem =>
    (List.nodup_append.mp hkeys2).2.2 hmem (List.mem_singleton.mpr rfl)
  have hbotv : ¬ env.botUsername ∈ bdVals adds := by
    intro hmem
    rcases List.mem_map.mp hmem with ⟨x, hx, hx2⟩
    exact hnobot x hx hx2
  -- processing the bot add from any backfilling state over the same cache
  have hbot : ∀ (pl prev : List (String × String)),
      bdHasVal pl env.botUsername = false →
      bdHasKey pl botUuid = false →
      handle_tab_list env
          { playerList := pl, uuidCache := st0.uuidCache, prevPlayerList := prev,
            acceptJoinEvents := false }
          [TabAction.addPlayer botUuid env.botUsername] =
        { effects := (backfillDiff prev (pl ++ [(botUuid, env.botUsername)])).map
              TabEffect.esDisconnected ++
            [TabEffect.esConnected botUuid, TabEffect.esSeen botUuid],
          state :=
            { playerList := pl ++ [(botUuid, env.botUsername)],
              uuidCache := st0.uuidCache, prevPlayerList := prev,
              acceptJoinEvents := true },
          raised := none } := by
    intro pl prev hv hk
    have h3 : bdHasVal st0.uuidCache env.botUsername = true :=
      bdHasVal_eq_true.mpr (mem_bdVals_of_mem hbotpair)
    simp only [handle_tab_list]
    unfold processAdd processAddTail
    simp [hv, hk, h3, hes]
  -- the silent backfill hypotheses at the post-disconnect state
  have hcache2 : ∀ a ∈ adds, a ∈
      ({ playerList := [], uuidCache := st0.uuidCache,
         prevPlayerList := st0.playerList, acceptJoinEvents := false } :
        BridgeState).uuidCache :=
    fun a ha => hcache a (List.mem_append.mpr (Or.inl ha))
  have hfreshk : ∀ a ∈ adds, ¬ a.1 ∈ bdKeys
      ({ playerList := [], uuidCache := st0.uuidCache,
         prevPlayerList := st0.playerList, acceptJoinEvents := false } :
        BridgeState).playerList := by
    intro a _ hmem
    simp [bdKeys] at hmem
  have hfreshv : ∀ a ∈ adds, ¬ a.2 ∈ bdVals
      ({ playerList := [], uuidCache := st0.uuidCache,
         prevPlayerList := st0.playerList, acceptJoinEvents := false } :
        BridgeState).playerList := by
    intro a _ hmem
    simp [bdVals] at hmem
  have hback := backfill_adds_step env hes adds
    { playerList := [], uuidCache := st0.uuidCache,
      prevPlayerList := st0.playerList, acceptJoinEvents := false }
  have hfull := hback [TabAction.addPlayer botUuid env.botUsername] rfl hnobot
    hcache2 hfreshk hfreshv hknd hvnd
  have hpre := hback [] rfl hnobot hcache2 hfreshk hfreshv hknd hvnd
  simp only [List.nil_append] at hfull hpre
  rw [hbot adds st0.playerList (bdHasVal_eq_false.mpr hbotv)
    (bdHasKey_eq_false.mpr hbotk)] at hfull
  -- evaluate the three-event runs
  have hErunfull : (runEvents env st0
      [GameEvent.disconnectEvent, GameEvent.joinGameEvent,
        GameEvent.tabPacket ((adds.map (fun a => TabAction.addPlayer a.1 a.2)) ++
          [TabAction.addPlayer botUuid env.botUsername])]).1 =
      (handle_tab_list env
        { playerList := [], uuidCache := st0.uuidCache,
          prevPlayerList := st0.playerList, acceptJoinEvents := false }
        ((adds.map (fun a => TabAction.addPlayer a.1 a.2)) ++
          [TabAction.addPlayer botUuid env.botUsername])).effects := by
    simp [runEvents, handle_disconnect, handle_join_game]
  have hSrunfull : (runEvents env st0
      [GameEvent.disconnectEvent, GameEvent.joinGameEvent,
        GameEvent.tabPacket ((adds.map (fun a => TabAction.addPlayer a.1 a.2)) ++
          [TabAction.addPlayer botUuid env.botUsername])]).2 =
      (handle_tab_list env
        { playerList := [], uuidCache := st0.uuidCache,
          prevPlayerList := st0.playerList, acceptJoinEvents := false }
        ((adds.map (fun a => TabAction.addPlayer a.1 a.2)) ++
          [TabAction.addPlayer botUuid env.botUsername])).state := by
    simp [runEvents, handle_disconnect, handle_join_game]
  have hErunpre : (runEvents env st0
      [GameEvent.disconnectEvent, GameEvent.joinGameEvent,
        GameEvent.tabPacket (adds.map (fun a => TabAction.addPlayer a.1 a.2))]).1 =
      (handle_tab_list env
        { playerList := [], uuidCache := st0.uuidCache,
          prevPlayerList := st0.playerList, acceptJoinEvents := false }
        (adds.map (fun a => TabAction.addPlayer a.1 a.2))).effects := by
    simp [runEvents, handle_disconnect, handle_join_game]
  -- the diff contains p exactly once
  have hdiffmem : p ∈ backfillDiff st0.playerList
      (adds ++ [(botUuid, env.botUsername)]) := by
    unfold backfillDiff
    refine List.mem_filter.mpr ⟨hp, ?_⟩
    simp [bdHasKey_eq_false.mpr hgone]
  have hdiffnd : (backfillDiff st0.playerList
      (adds ++ [(botUuid, env.botUsername)])).Nodup :=
    hnodup.filter _
  have hcountdiff : (backfillDiff st0.playerList
      (adds ++ [(botUuid, env.botUsername)])).count p = 1 :=
    List.count_eq_one_of_mem hdiffnd hdiffmem
  have hinj : Function.Injective TabEffect.esDisconnected :=
    fun a b h => TabEffect.esDisconnected.inj h
  refine ⟨?_, ?_, ?_, ?_⟩
  · rw [hErunfull, hfull]
    simp only [List.count_append]
    rw [List.count_map_of_injective _ _ hinj p, hcountdiff]
    have hz1 : (adds.map (fun a => TabEffect.esSeen a.1)).count
        (TabEffect.esDisconnected p) = 0 := by
      refine List.count_eq_zero.mpr ?_
      simp
    have hz2 : ([TabEffect.esConnected botUuid,
        TabEffect.esSeen botUuid]).count (TabEffect.esDisconnected p) = 0 := by
      refine List.count_eq_zero.mpr ?_
      simp
    rw [hz1, hz2]
  · rw [hErunpre]
    have hnil := hpre
    rw [List.append_nil] at hnil
    rw [hnil]
    simp [handle_tab_list]
  · rw [hSrunfull, hfull]
  · rw [hErunfull, hfull]
    simp

/-- Claim C2, witness at a concrete input: alice (p1) was present before the
disconnect, the backfill re-adds carol (q1) and then the bridge account
itself (b1); alice gets exactly one analytics disconnect entry, only when
the bridge account arrives, and no leave embed is posted. -/
theorem c2_witness :
    ((runEvents envA
        { playerList := [("p1", "alice"), ("b1", "bridgebot")],
          uuidCache := [("p1", "alice"), ("b1", "bridgebot"), ("q1", "carol")],
          prevPlayerList := [], acceptJoinEvents := true }
        [GameEvent.disconnectEvent, GameEvent.joinGameEvent,
          GameEvent.tabPacket (([("q1", "carol")].map
              (fun a => TabAction.addPlayer a.1 a.2)) ++
            [TabAction.addPlayer "b1" envA.botUsername])]).1.count
      (TabEffect.esDisconnected "p1")) = 1 ∧
    ¬ TabEffect.esDisconnected "p1" ∈
      (runEvents envA
        { playerList := [("p1", "alice"), ("b1", "bridgebot")],
          uuidCache := [("p1", "alice"), ("b1", "bridgebot"), ("q1", "carol")],
          prevPlayerList := [], acceptJoinEvents := true }
        [GameEvent.disconnectEvent, GameEvent.joinGameEvent,
          GameEvent.tabPacket ([("q1", "carol")].map
            (fun a => TabAction.addPlayer a.1 a.2))]).1 ∧
    (runEvents envA
        { playerList := [("p1", "alice"), ("b1", "bridgebot")],
          uuidCache := [("p1", "alice"), ("b1", "bridgebot"), ("q1", "carol")],
          prevPlayerList := [], acceptJoinEvents := true }
        [GameEvent.disconnectEvent, GameEvent.joinGameEvent,
          GameEvent.tabPacket (([("q1", "carol")].map
              (fun a => TabAction.addPlayer a.1 a.2)) ++
            [TabAction.addPlayer "b1" envA.botUsername])]).2.acceptJoinEvents =
      true ∧
    ¬ TabEffect.postLeave "hookA" (some "alice") "p1" ∈
      (runEvents envA
        { playerList := [("p1", "alice"), ("b1", "bridgebot")],
          uuidCache := [("p1", "alice"), ("b1", "bridgebot"), ("q1", "carol")],
          prevPlayerList := [], acceptJoinEvents := true }
        [GameEvent.disconnectEvent, GameEvent.joinGameEvent,
          GameEvent.tabPacket (([("q1", "carol")].map
              (fun a => TabAction.addPlayer a.1 a.2)) ++
            [TabAction.addPlayer "b1" envA.botUsername])]).1 :=
  c2_offline_leaver_single_notice envA
    { playerList := [("p1", "alice"), ("b1", "bridgebot")],
      uuidCache := [("p1", "alice"), ("b1", "bridgebot"), ("q1", "carol")],
      prevPlayerList := [], acceptJoinEvents := true }
    [("q1", "carol")] "b1" "p1" "hookA" (some "alice") "p1"
    (by decide) (by decide) (by decide) (by decide)
    (by decide) (by decide) (by decide) (by decide)

/-- Claim C2, counterexample to the claim as stated: for the player p1, who
was present before the disconnect and is absent from the post-reconnect
backfill, the whole reconnect run posts nothing to any webhook endpoint even
with analytics enabled (the only disconnect record for p1 is the
elasticsearch analytics entry), and with analytics disabled the run emits no
notification of any kind, so no chat-platform leave notification for p1 is
ever emitted. -/
theorem c2_counterexample :
    (runEvents envA
        { playerList := [("p1", "alice"), ("b1", "bridgebot")],
          uuidCache := [("p1", "alice"), ("b1", "bridgebot"), ("q1", "carol")],
          prevPlayerList := [], acceptJoinEvents := true }
        [GameEvent.disconnectEvent, GameEvent.joinGameEvent,
          GameEvent.tabPacket [TabAction.addPlayer "q1" "carol",
            TabAction.addPlayer "b1" "bridgebot"]]).1 =
      [TabEffect.esSeen "q1", TabEffect.esDisconnected "p1",
        TabEffect.esConnected "b1", TabEffect.esSeen "b1"] ∧
    (runEvents envNoEs
        { playerList := [("p1", "alice"), ("b1", "bridgebot")],
          uuidCache := [("p1", "alice"), ("b1", "bridgebot"), ("q1", "carol")],
          prevPlayerList := [], acceptJoinEvents := true }
        [GameEvent.disconnectEvent, GameEvent.joinGameEvent,
          GameEvent.tabPacket [TabAction.addPlayer "q1" "carol",
            TabAction.addPlayer "b1" "bridgebot"]]).1 = [] := by
  decide

end Bridge

